import Mathlib

/-!
# FooandV/worker, `go-api/main.go`

A shallow embedding of the two HTTP handlers `getProduct` and `getCustomer`
together with the parts of the Go standard library they call
(`net/url` query parsing, `net/http` headers and response writer,
`encoding/json` encoding and decoding, `strconv` float formatting and
parsing), followed by the properties of the handlers.

Go strings are byte sequences; they are modelled as `List UInt8`, and a string
literal of the source is its UTF-8 encoding.
-/

/-! ## Go strings -/

/-- A Go `string`: an immutable sequence of bytes. -/
abbrev GoString := List UInt8

/-- The bytes of a Go string literal (Go source text is UTF-8). -/
def go (s : String) : GoString := s.toUTF8.data.toList

/-! ## `float64` -/

/-- A Go `float64`, by its IEEE 754 binary64 bit pattern (`math.Float64bits`). -/
structure Float64 where
  bits : Nat
deriving DecidableEq

namespace Float64

/-- Quotient of `num / den` rounded to the nearest integer, ties to even. -/
def roundHalfEven (num den : Nat) : Nat :=
  let q := num / den
  let r := num % den
  if 2 * r < den then q
  else if 2 * r = den then (if q % 2 = 0 then q else q + 1)
  else q + 1

/-- Floor of the binary logarithm of `n` for `1 ≤ n < 2 ^ 4096` (0 for `n = 0`,
4095 above the range), by halving the shift. -/
def log2Upto (n : Nat) : Nat :=
  ([2048, 1024, 512, 256, 128, 64, 32, 16, 8, 4, 2, 1].foldl
    (fun (st : Nat × Nat) (s : Nat) =>
      if 2 ^ s ≤ st.1 then (st.1 / 2 ^ s, st.2 + s) else st) (n, 0)).2

/-- Bit pattern of positive infinity. -/
def infBits : Nat := 0x7FF0000000000000

/-- The binary64 nearest to the non-negative rational `n / d` (round to nearest,
ties to even; infinity on overflow).  All quantities are scaled by `2 ^ 1074`,
the reciprocal of the smallest subnormal, so that `k` is the exponent of the
unit in the last place counted from `-1074`; `k * 2 ^ 52 + m` is then the bit
pattern both for subnormals (`k = 0`, `m < 2 ^ 52`) and for normal numbers
(`2 ^ 52 ≤ m ≤ 2 ^ 53`, the leading bit carrying into the exponent field).
The logarithm is capped at 4095, far beyond where the result is infinity
anyway (`k ≥ 2047`). -/
def ofRatio (n d : Nat) : Float64 :=
  let N := n * 2 ^ 1074
  let k := log2Upto (N / d) - 52
  let b := k * 2 ^ 52 + roundHalfEven N (d * 2 ^ k)
  ⟨if b < infBits then b else infBits⟩

/-- The binary64 nearest to `c * 10 ^ p`, for a non-negative decimal. -/
def ofDecimal (c : Nat) (p : Int) : Float64 :=
  match p with
  | Int.ofNat a => ofRatio (c * 10 ^ a) 1
  | Int.negSucc a => ofRatio c (10 ^ (a + 1))

/-- A floating-point constant of the source, converted to `float64` as the Go
compiler converts an untyped constant: exactly, then rounded to nearest even. -/
instance : OfScientific Float64 where
  ofScientific mantissa exponentSign decimalExponent :=
    if exponentSign then ofDecimal mantissa (-(decimalExponent : Int))
    else ofDecimal mantissa decimalExponent

/-- Sign bit set. -/
def signbit (f : Float64) : Bool := decide (2 ^ 63 ≤ f.bits)

/-- The bit pattern of `math.Abs f`. -/
def absBits (f : Float64) : Nat := f.bits % 2 ^ 63

/-- Go `math.IsInf(f, 0) || math.IsNaN(f)`: the exponent field is all ones. -/
def isInfOrNaN (f : Float64) : Bool := decide (infBits ≤ f.absBits)

end Float64

/-! ## The records of `main.go` -/

/-- The `type Product struct` (lines 8-13). -/
structure Product where
  ProductID : GoString
  Name : GoString
  Description : GoString
  Price : Float64
deriving DecidableEq

/-- The `type Customer struct` (lines 15-20). -/
structure Customer where
  CustomerID : GoString
  Name : GoString
  Email : GoString
  Active : Bool
deriving DecidableEq

/-- Lines 27-42 of `getProduct`: the value of `product` after the conditional,
as a function of the extracted `productID`. -/
def getProduct.product (productID : GoString) : Product :=
  if productID = go "product-100" then
    { ProductID := go "product-100"
      Name := go "Iphone"
      Description := go "Un smartphone de última generación"
      Price := 2000.00 }
  else
    { ProductID := go "product-789"
      Name := go "Laptop"
      Description := go "Una laptop potente"
      Price := 999.99 }

/-- Lines 53-69 of `getCustomer`: the value of `customer` after the
conditional, as a function of the extracted `customerID`. -/
def getCustomer.customer (customerID : GoString) : Customer :=
  if customerID = go "Freyder-111" then
    { CustomerID := go "Freyder-111"
      Name := go "Freyder Otalvaro"
      Email := go "freyde.otalvaro@example.com"
      Active := false }
  else
    { CustomerID := go "Violetta-495"
      Name := go "Violetta Otalvaro"
      Email := go "violetta.otalvaro@example.com"
      Active := true }

/-! ## `strings` -/

namespace strings

/-- Whether `s` begins with `p`. -/
def startsWith : GoString → GoString → Bool
  | _, [] => true
  | [], _ :: _ => false
  | a :: s, b :: p => a == b && startsWith s p

/-- The scan of `strings.Cut`: `before` holds, reversed, the bytes already
passed over. -/
def Cut.scan (sep : GoString) : GoString → GoString → GoString × GoString × Bool
  | before, [] => (before.reverse, [], sep.isEmpty)
  | before, c :: rest =>
    if startsWith (c :: rest) sep then (before.reverse, (c :: rest).drop sep.length, true)
    else Cut.scan sep (c :: before) rest

/-- Go `strings.Cut(s, sep)`: the text before and after the first instance of
`sep`, and whether `sep` was found; `(s, "", false)` when it was not. -/
def Cut (s sep : GoString) : GoString × GoString × Bool := Cut.scan sep [] s

/-- Go `strings.Contains(s, substr)`. -/
def Contains (s substr : GoString) : Bool := (Cut s substr).2.2

/-- The scan of `strings.Count`: `skip` counts the bytes of the instance just
counted that are still to pass, `n` the instances counted so far. -/
def Count.scan (substr : GoString) : Nat → Nat → GoString → Nat
  | _, n, [] => n
  | skip + 1, n, _ :: rest => Count.scan substr skip n rest
  | 0, n, c :: rest =>
    if startsWith (c :: rest) substr then Count.scan substr (substr.length - 1) (n + 1) rest
    else Count.scan substr 0 n rest

/-- Go `strings.Count(s, substr)` for a non-empty `substr`: the number of
non-overlapping instances of `substr` in `s`. -/
def Count (s substr : GoString) : Nat := Count.scan substr 0 0 s

end strings

/-! ## `net/url` -/

namespace url

/-- Go `url.Values`, a `map[string][]string`; the keys of the list are distinct. -/
abbrev Values := List (GoString × List GoString)

/-- Go `v[key]`: the values stored under `key`, `nil` when there are none. -/
def Values.index : Values → GoString → List GoString
  | [], _ => []
  | (k, vs) :: v, key => if k = key then vs else Values.index v key

/-- Go `v.Add(key, value)`, that is `v[key] = append(v[key], value)`. -/
def Values.Add : Values → GoString → GoString → Values
  | [], key, value => [(key, [value])]
  | (k, vs) :: v, key, value =>
    if k = key then (k, vs ++ [value]) :: v else (k, vs) :: Values.Add v key value

/-- Go `v.Get(key)`: the first value associated with the key, the empty string
when there is none. -/
def Values.Get (v : Values) (key : GoString) : GoString :=
  match v.index key with
  | [] => []
  | x :: _ => x

/-- Go `v.Has(key)`: whether the key is set. -/
def Values.Has (v : Values) (key : GoString) : Bool :=
  v.any (fun kv => kv.1 == key)

/-- ASCII hexadecimal digit. -/
def ishex (c : UInt8) : Bool :=
  (48 ≤ c && c ≤ 57) || (97 ≤ c && c ≤ 102) || (65 ≤ c && c ≤ 70)

/-- Value of a hexadecimal digit. -/
def unhex (c : UInt8) : UInt8 :=
  if 48 ≤ c && c ≤ 57 then c - 48
  else if 97 ≤ c && c ≤ 102 then c - 97 + 10
  else if 65 ≤ c && c ≤ 70 then c - 65 + 10
  else 0

/-- Go `url.QueryUnescape`: `%XX` becomes the byte `0xXX`, `+` becomes a space;
`none` (an `EscapeError`) when a `%` is not followed by two hexadecimal
digits. -/
def QueryUnescape : GoString → Option GoString
  | [] => some []
  | c :: rest =>
    if c = 37 then
      match rest with
      | a :: b :: rest2 =>
        if ishex a && ishex b then
          (QueryUnescape rest2).map (fun t => ((unhex a <<< 4) ||| unhex b) :: t)
        else none
      | _ => none
    else if c = 43 then (QueryUnescape rest).map (fun t => 32 :: t)
    else (QueryUnescape rest).map (fun t => c :: t)

/-- The successive values of `key` in the loop of `parseQuery`
(`key, query, _ = strings.Cut(query, "&")` while `query != ""`): the pieces of
`query` between ampersands.  `cur` holds, reversed, the piece being read. -/
def parseQuery.pieces : GoString → GoString → List GoString
  | cur, [] => [cur.reverse]
  | cur, c :: rest =>
    if c = 38 then cur.reverse :: parseQuery.pieces [] rest
    else parseQuery.pieces (c :: cur) rest

/-- One iteration of the loop of `parseQuery` on the piece `key`: a piece with
a semicolon, an empty piece and a piece whose key or value does not unescape
are skipped (the error is recorded, and dropped by `URL.Query`). -/
def parseQuery.step (m : Values) (key : GoString) : Values :=
  if strings.Contains key (go ";") then m
  else if key = [] then m
  else
    let kv := strings.Cut key (go "=")
    match QueryUnescape kv.1 with
    | none => m
    | some k =>
      match QueryUnescape kv.2.1 with
      | none => m
      | some value => m.Add k value

/-- The default of the setting `urlmaxqueryparams`: the largest number of
parameters `parseQuery` accepts. -/
def defaultMaxParams : Nat := 10000

/-- Go `urlParamsWithinMax(params)`, with the setting at its default. -/
def urlParamsWithinMax (params : Nat) : Bool := decide (params ≤ defaultMaxParams)

/-- The loop of `parseQuery` over the whole query, from the empty map. -/
def parseQuery.loop (query : GoString) : Values :=
  (parseQuery.pieces [] query).foldl parseQuery.step []

/-- Go `url.ParseQuery`, without its error result: a query with more
parameters than the limit (`strings.Count(query, "&") + 1` of them) is refused
before the loop, with an error and no values. -/
def ParseQuery (query : GoString) : Values :=
  if urlParamsWithinMax (strings.Count query (go "&") + 1) then parseQuery.loop query
  else []

/-- The fields of `url.URL` that matter to a handler. -/
structure URL where
  Path : GoString
  RawQuery : GoString
deriving DecidableEq

/-- Go `u.Query()`: `ParseQuery(u.RawQuery)`, malformed pairs silently dropped
and its error discarded. -/
def URL.Query (u : URL) : Values := ParseQuery u.RawQuery

end url

/-! ## `net/http` -/

namespace http

/-- Go `http.Header`, a `map[string][]string`; the keys of the list are distinct. -/
abbrev Header := List (GoString × List GoString)

/-- Token bytes of RFC 7230 (`!#$%&'*+-.^_` and the backquote, `|~`, digits
and letters), the bytes allowed in a header field name. -/
def validHeaderFieldByte (c : UInt8) : Bool :=
  c = 33 || (35 ≤ c && c ≤ 39) || c = 42 || c = 43 || c = 45 || c = 46 ||
  (48 ≤ c && c ≤ 57) || (65 ≤ c && c ≤ 90) || (94 ≤ c && c ≤ 122) || c = 124 || c = 126

/-- Case conversion of `canonicalMIMEHeaderKey`: upper case at the start and
after a hyphen, lower case elsewhere. -/
def canonicalCase : Bool → GoString → GoString
  | _, [] => []
  | upper, c :: rest =>
    let c1 := if upper && 97 ≤ c && c ≤ 122 then c - 32
              else if !upper && 65 ≤ c && c ≤ 90 then c + 32
              else c
    c1 :: canonicalCase (c == 45) rest

/-- Go `textproto.CanonicalMIMEHeaderKey`: a key with a byte that is not allowed
in a field name is returned unchanged. -/
def CanonicalMIMEHeaderKey (s : GoString) : GoString :=
  if s.all validHeaderFieldByte then canonicalCase true s else s

/-- Map assignment `h[key] = vs`. -/
def Header.assign : Header → GoString → List GoString → Header
  | [], key, vs => [(key, vs)]
  | (k, old) :: h, key, vs =>
    if k = key then (k, vs) :: h else (k, old) :: Header.assign h key vs

/-- Go `h[key]`, `nil` when absent. -/
def Header.index : Header → GoString → List GoString
  | [], _ => []
  | (k, vs) :: h, key => if k = key then vs else Header.index h key

/-- Go `h.Set(key, value)`: the entry of the canonical key becomes the single
value, replacing what was there. -/
def Header.Set (h : Header) (key value : GoString) : Header :=
  h.assign (CanonicalMIMEHeaderKey key) [value]

/-- Go `h.Get(key)`: the first value of the canonical key, or the empty string. -/
def Header.Get (h : Header) (key : GoString) : GoString :=
  match h.index (CanonicalMIMEHeaderKey key) with
  | [] => []
  | x :: _ => x

/-- The fields of `http.Request` a handler can read. -/
structure Request where
  Method : GoString
  URL : url.URL
  Header : Header
  Body : GoString
deriving DecidableEq

/-- What a handler does to its `http.ResponseWriter`, as the server's
`response` (and `httptest.ResponseRecorder`) records it: the header map the
handler edits through `Header()`, and, once the header is written, the status
code and the copy of the header map that is sent, followed by the bytes
written. -/
structure ResponseWriter where
  handlerHeader : Header
  wroteHeader : Bool
  status : Nat
  sentHeader : Header
  body : GoString
deriving DecidableEq

/-- The writer a handler receives for a new request. -/
def ResponseWriter.new : ResponseWriter :=
  { handlerHeader := [], wroteHeader := false, status := 0, sentHeader := [], body := [] }

/-- Go `w.Header().Set(key, value)`. -/
def ResponseWriter.HeaderSet (w : ResponseWriter) (key value : GoString) : ResponseWriter :=
  { w with handlerHeader := w.handlerHeader.Set key value }

/-- Go `w.WriteHeader(code)`: the first call fixes the status and the headers
sent; a later call changes nothing. -/
def ResponseWriter.WriteHeader (w : ResponseWriter) (code : Nat) : ResponseWriter :=
  if w.wroteHeader then w
  else { w with wroteHeader := true, status := code, sentHeader := w.handlerHeader }

/-- Go `http.StatusOK`. -/
def StatusOK : Nat := 200

/-- Go `w.Write(data)`: writes the header with `StatusOK` when it was not written
yet, then the data. -/
def ResponseWriter.Write (w : ResponseWriter) (data : GoString) : ResponseWriter :=
  let w1 := w.WriteHeader StatusOK
  { w1 with body := w1.body ++ data }

end http

/-! ## `strconv`: shortest formatting of a `float64` -/

namespace strconv

/-- The decimal digits `d` of a number and the position `dp` of its decimal
point: the value is `0.d × 10 ^ dp` (`strconv.decimalSlice`). -/
structure decimalSlice where
  d : GoString
  dp : Int
deriving DecidableEq

/-- ASCII decimal digits of a natural number. -/
def asciiDigits (n : Nat) : GoString := (Nat.toDigits 10 n).map (fun c => c.toNat.toUInt8)

/-- The search of the shortest decimal: `vn / 2 ^ 1074` is the exact value of
the positive `f`; on the grid of the multiples of `10 ^ p`, from a coarse grid
to finer ones, the two neighbours `lo` and `lo + 1` of the value are tried,
and the first grid on which one of them converts back to `f` gives the digits
(the nearer of the two, ties to even, when both do). -/
def shortest.search (f : Float64) (vn : Nat) : Nat → Int → Option (Nat × Int)
  | 0, _ => none
  | fuel + 1, p =>
    let num := match p with
      | Int.ofNat _ => vn
      | Int.negSucc a => vn * 10 ^ (a + 1)
    let den := match p with
      | Int.ofNat a => 2 ^ 1074 * 10 ^ a
      | Int.negSucc _ => 2 ^ 1074
    let lo := num / den
    let okdown := decide (Float64.ofDecimal lo p = f)
    let okup := decide (Float64.ofDecimal (lo + 1) p = f)
    if okdown && okup then some (Float64.roundHalfEven num den, p)
    else if okdown then some (lo, p)
    else if okup then some (lo + 1, p)
    else shortest.search f vn fuel (p - 1)

/-- The shortest decimal that converts back to the finite `f` (precision `-1`
of `strconv.FormatFloat`), for the absolute value of `f`.  The search starts
at `10 ^ 310`, above every finite `float64`, and ends at the latest 17 digits
below the smallest subnormal. -/
def shortest (f : Float64) : decimalSlice :=
  let a := f.absBits
  if a = 0 then ⟨[], 0⟩
  else
    let vn := if a < 2 ^ 52 then a else (a % 2 ^ 52 + 2 ^ 52) * 2 ^ (a / 2 ^ 52 - 1)
    match shortest.search ⟨a⟩ vn 700 310 with
    | some (c, p) => ⟨asciiDigits c, p + (asciiDigits c).length⟩
    | none => ⟨[], 0⟩

/-- The digit `d.d[j]`, `'0'` outside the digits. -/
def decimalSlice.digit (d : decimalSlice) (j : Int) : UInt8 :=
  match j with
  | Int.ofNat n => d.d.getD n 48
  | Int.negSucc _ => 48

/-- Go `strconv.fmtF`: `%f` with `prec` digits after the point. -/
def fmtF (neg : Bool) (d : decimalSlice) (prec : Nat) : GoString :=
  (if neg then [45] else []) ++
  (if 0 < d.dp then
    d.d.take d.dp.toNat ++ List.replicate (d.dp.toNat - d.d.length) 48
   else [48]) ++
  (if 0 < prec then 46 :: (List.range prec).map (fun i => d.digit (d.dp + i)) else [])

/-- Go `strconv.fmtE`: `%e` with `prec` digits after the point and an exponent
of at least two digits. -/
def fmtE (neg : Bool) (d : decimalSlice) (prec : Nat) : GoString :=
  let exp : Int := if d.d.length = 0 then 0 else d.dp - 1
  let e := exp.natAbs
  (if neg then [45] else []) ++
  [d.d.getD 0 48] ++
  (if 0 < prec then
    46 :: ((d.d.take (prec + 1)).drop 1 ++ List.replicate (prec + 1 - max d.d.length 1) 48)
   else []) ++
  [101, if exp < 0 then 45 else 43] ++
  (if e < 10 then 48 :: asciiDigits e else asciiDigits e)

/-- Go `strconv.FormatFloat(f, fmt, -1, 64)` for a finite `f` and `fmt` one of
`'e'` and `'f'`. -/
def FormatFloat (f : Float64) (fmt : UInt8) : GoString :=
  let digs := shortest f
  if fmt = 101 then fmtE f.signbit digs (digs.d.length - 1)
  else fmtF f.signbit digs (digs.d.length - digs.dp).toNat

end strconv

/-! ## `unicode/utf8` -/

namespace utf8

/-- Go `utf8.RuneError`, U+FFFD. -/
def RuneError : Nat := 0xFFFD

/-- Continuation byte `10xxxxxx`. -/
def isCont (b : UInt8) : Bool := 0x80 ≤ b && b ≤ 0xBF

/-- Go `utf8.DecodeRune`: the first rune of `p` and its width in bytes;
`(RuneError, 1)` for an encoding that is not valid UTF-8 (truncated, overlong,
a surrogate, above U+10FFFF), `(RuneError, 0)` for the empty string. -/
def DecodeRune : GoString → Nat × Nat
  | [] => (RuneError, 0)
  | b0 :: rest =>
    if b0 < 0x80 then (b0.toNat, 1)
    else if 0xC2 ≤ b0 && b0 ≤ 0xDF then
      match rest with
      | b1 :: _ =>
        if isCont b1 then (b0.toNat % 32 * 64 + b1.toNat % 64, 2) else (RuneError, 1)
      | _ => (RuneError, 1)
    else if 0xE0 ≤ b0 && b0 ≤ 0xEF then
      match rest with
      | b1 :: b2 :: _ =>
        let lo : UInt8 := if b0 = 0xE0 then 0xA0 else 0x80
        let hi : UInt8 := if b0 = 0xED then 0x9F else 0xBF
        if lo ≤ b1 && b1 ≤ hi && isCont b2 then
          (b0.toNat % 16 * 4096 + b1.toNat % 64 * 64 + b2.toNat % 64, 3)
        else (RuneError, 1)
      | _ => (RuneError, 1)
    else if 0xF0 ≤ b0 && b0 ≤ 0xF4 then
      match rest with
      | b1 :: b2 :: b3 :: _ =>
        let lo : UInt8 := if b0 = 0xF0 then 0x90 else 0x80
        let hi : UInt8 := if b0 = 0xF4 then 0x8F else 0xBF
        if lo ≤ b1 && b1 ≤ hi && isCont b2 && isCont b3 then
          (b0.toNat % 8 * 262144 + b1.toNat % 64 * 4096 + b2.toNat % 64 * 64 + b3.toNat % 64, 4)
        else (RuneError, 1)
      | _ => (RuneError, 1)
    else (RuneError, 1)

end utf8

/-! ## `encoding/json`: encoding -/

namespace json

/-- The error of `Marshal`: `*json.UnsupportedValueError`, for a float that is
infinite or not a number. -/
inductive Error where
  | UnsupportedValue
deriving DecidableEq

/-- The digit of `hex = "0123456789abcdef"` at index `n < 16`. -/
def hex (n : UInt8) : UInt8 := if n < 10 then 48 + n else 87 + n

/-- Go `htmlSafeSet[b]` for `b < utf8.RuneSelf`: the ASCII bytes written as they
are inside a JSON string when HTML escaping is on, that is all but the control
characters, the double quote, the backslash and `<`, `>`, `&`. -/
def htmlSafeSet (b : UInt8) : Bool :=
  0x20 ≤ b && b != 34 && b != 92 && b != 60 && b != 62 && b != 38

/-- The escape written by `appendString` for an ASCII byte outside
`htmlSafeSet`. -/
def escapeByte (b : UInt8) : GoString :=
  if b = 92 || b = 34 then [92, b]
  else if b = 8 then [92, 98]
  else if b = 12 then [92, 102]
  else if b = 10 then [92, 110]
  else if b = 13 then [92, 114]
  else if b = 9 then [92, 116]
  else [92, 117, 48, 48, hex (b >>> 4), hex (b &&& 0xF)]

/-- The loop of `appendString` with `escapeHTML` set.  `pending` counts the
bytes of the current rune still to pass (its continuation bytes), which are
copied when `copy` is set and dropped when the rune was written as an
escape. -/
def appendString.loop : Nat → Bool → GoString → GoString
  | _, _, [] => []
  | pending + 1, copy, b :: rest =>
    if copy then b :: appendString.loop pending copy rest
    else appendString.loop pending copy rest
  | 0, _, b :: rest =>
    if b < 0x80 then
      if htmlSafeSet b then b :: appendString.loop 0 true rest
      else escapeByte b ++ appendString.loop 0 true rest
    else
      let cs := utf8.DecodeRune (b :: rest)
      if cs.1 = utf8.RuneError && cs.2 = 1 then
        go "\\ufffd" ++ appendString.loop 0 true rest
      else if cs.1 = 0x2028 || cs.1 = 0x2029 then
        go "\\u202" ++ [hex (cs.1 % 16).toUInt8] ++ appendString.loop (cs.2 - 1) false rest
      else b :: appendString.loop (cs.2 - 1) true rest

/-- Go `appendString(nil, src, true)`: `src` as a JSON string literal. -/
def appendString (src : GoString) : GoString :=
  34 :: appendString.loop 0 true src ++ [34]

/-- Go `floatEncoder(64).encode`: the ES6 number-to-string conversion; exponent
form below `1e-6` and from `1e21`, with `e-09` cleaned up to `e-9`. -/
def floatEncoder (f : Float64) : Except Error GoString :=
  if f.isInfOrNaN then .error .UnsupportedValue
  else
    let abs := f.absBits
    let fmt : UInt8 :=
      if abs ≠ 0 ∧ (abs < (1e-6 : Float64).bits ∨ (1e21 : Float64).bits ≤ abs) then 101 else 102
    let b := strconv.FormatFloat f fmt
    if fmt = 101 then
      match b.reverse with
      | x :: z :: sgn :: e :: rest =>
        if e = 101 && (sgn = 45 || sgn = 43) && z = 48 then
          .ok (x :: sgn :: e :: rest).reverse
        else .ok b
      | _ => .ok b
    else .ok b

/-- Go `boolEncoder`. -/
def boolEncoder (b : Bool) : GoString := if b then go "true" else go "false"

/-- The field values of the structs of this program, by kind
(`reflect.String`, `reflect.Float64`, `reflect.Bool`). -/
inductive Value where
  | String (s : GoString)
  | Float64 (f : Float64)
  | Bool (b : Bool)
deriving DecidableEq

/-- The encoder of a field, chosen by its kind. -/
def valueEncoder : Value → Except Error GoString
  | .String s => .ok (appendString s)
  | .Float64 f => floatEncoder f
  | .Bool b => .ok (boolEncoder b)

/-- The loop of `structEncoder.encode` over the fields in declaration order:
`next` is `'{'` before the first field and `','` afterwards, and each field
is written as its quoted name, a colon and its value. -/
def structEncoder.loop : UInt8 → List (GoString × Value) → Except Error GoString
  | next, [] => .ok (if next = 123 then [123, 125] else [125])
  | next, (name, v) :: fs =>
    match valueEncoder v with
    | .error e => .error e
    | .ok b =>
      match structEncoder.loop 44 fs with
      | .error e => .error e
      | .ok rest => .ok (next :: (34 :: name ++ [34, 58]) ++ b ++ rest)

/-- A struct type with `json` field tags: its fields in declaration order,
each with the name given by its tag (read by the encoder), and the assignment
to the field of a given index of a value of the kind of that field (used by
the decoder; any other assignment changes nothing). -/
class Struct (α : Type) where
  fields : α → List (GoString × Value)
  set : α → Nat → Value → α

/-- Go `json.Marshal(v)` for a struct `v`. -/
def Marshal {α : Type} [Struct α] (v : α) : Except Error GoString :=
  structEncoder.loop 123 (Struct.fields v)

/-- Go `json.NewEncoder(w).Encode(v)`: the encoding of `v` followed by a newline,
in one `Write`; when `v` cannot be encoded nothing is written and the error is
returned. -/
def Encoder.Encode {α : Type} [Struct α] (w : http.ResponseWriter) (v : α) :
    http.ResponseWriter × Option Error :=
  match Marshal v with
  | .error e => (w, some e)
  | .ok b => (w.Write (b ++ [10]), none)

end json

/-- The field tags of `Product` (lines 9-12). -/
instance : json.Struct Product where
  fields p :=
    [ (go "productId", .String p.ProductID)
    , (go "name", .String p.Name)
    , (go "description", .String p.Description)
    , (go "price", .Float64 p.Price) ]
  set p i v :=
    match i, v with
    | 0, .String x => { p with ProductID := x }
    | 1, .String x => { p with Name := x }
    | 2, .String x => { p with Description := x }
    | 3, .Float64 x => { p with Price := x }
    | _, _ => p

/-- The field tags of `Customer` (lines 16-19). -/
instance : json.Struct Customer where
  fields c :=
    [ (go "customerId", .String c.CustomerID)
    , (go "name", .String c.Name)
    , (go "email", .String c.Email)
    , (go "active", .Bool c.Active) ]
  set c i v :=
    match i, v with
    | 0, .String x => { c with CustomerID := x }
    | 1, .String x => { c with Name := x }
    | 2, .String x => { c with Email := x }
    | 3, .Bool x => { c with Active := x }
    | _, _ => c

/-! ## `encoding/json`: decoding -/

namespace json

/-- A JSON text as `Unmarshal` reads it: strings are unquoted, numbers keep
their literal, and the members of an object keep their order. -/
inductive JSON where
  | null
  | bool (b : Bool)
  | number (lit : GoString)
  | string (s : GoString)
  | array (elems : List JSON)
  | object (members : List (GoString × JSON))

/-- The insignificant whitespace of JSON: space, tab, carriage return and
line feed (`isSpace` of the scanner). -/
def isSpace (c : UInt8) : Bool := c = 32 || c = 9 || c = 13 || c = 10

/-- Drops leading whitespace. -/
def skipSpace : GoString → GoString
  | [] => []
  | c :: rest => if isSpace c then skipSpace rest else c :: rest

/-- ASCII decimal digit. -/
def isDigit (c : UInt8) : Bool := 48 ≤ c && c ≤ 57

/-- Splits off the longest run of leading digits. -/
def spanDigits : GoString → GoString × GoString
  | [] => ([], [])
  | c :: rest =>
    if isDigit c then ((spanDigits rest).1.cons c, (spanDigits rest).2) else ([], c :: rest)

/-- Go `utf8.AppendRune` for a valid rune. -/
def encodeRune (r : Nat) : GoString :=
  if r < 0x80 then [r.toUInt8]
  else if r < 0x800 then [(0xC0 + r / 64).toUInt8, (0x80 + r % 64).toUInt8]
  else if r < 0x10000 then
    [(0xE0 + r / 4096).toUInt8, (0x80 + r / 64 % 64).toUInt8, (0x80 + r % 64).toUInt8]
  else
    [(0xF0 + r / 262144).toUInt8, (0x80 + r / 4096 % 64).toUInt8,
     (0x80 + r / 64 % 64).toUInt8, (0x80 + r % 64).toUInt8]

/-- Go `getu4`: the value of four hexadecimal digits, `none` when one of them is
not a hexadecimal digit. -/
def getu4 (a b c d : UInt8) : Option Nat :=
  if url.ishex a && url.ishex b && url.ishex c && url.ishex d then
    some ((url.unhex a).toNat * 4096 + (url.unhex b).toNat * 256
      + (url.unhex c).toNat * 16 + (url.unhex d).toNat)
  else none

/-- The body of a string literal, after the opening quote: the unquoted
string and the input after the closing quote.  `none` for an unterminated
literal, a control character or an unknown escape (a `SyntaxError`).  As in
`unquote`, a `\u` escape of a surrogate half is combined with the escape of
the matching half that follows it and otherwise gives U+FFFD, and a byte
sequence that is not valid UTF-8 gives U+FFFD. -/
def scanString : Nat → GoString → Option (GoString × GoString)
  | 0, _ => none
  | _ + 1, [] => none
  | fuel + 1, c :: rest =>
    if c = 34 then some ([], rest)
    else if c < 0x20 then none
    else if c = 92 then
      match rest with
      | [] => none
      | e :: rest1 =>
        let simple (b : UInt8) : Option (GoString × GoString) :=
          (scanString fuel rest1).map (fun r => (b :: r.1, r.2))
        if e = 34 || e = 92 || e = 47 then simple e
        else if e = 98 then simple 8
        else if e = 102 then simple 12
        else if e = 110 then simple 10
        else if e = 114 then simple 13
        else if e = 116 then simple 9
        else if e = 117 then
          match rest1 with
          | a :: b :: c1 :: d :: rest2 =>
            match getu4 a b c1 d with
            | none => none
            | some r =>
              if 0xD800 ≤ r && r < 0xE000 then
                match rest2 with
                | 92 :: 117 :: a2 :: b2 :: c2 :: d2 :: rest3 =>
                  match getu4 a2 b2 c2 d2 with
                  | some r2 =>
                    if r < 0xDC00 && 0xDC00 ≤ r2 && r2 < 0xE000 then
                      (scanString fuel rest3).map (fun t =>
                        (encodeRune ((r - 0xD800) * 1024 + (r2 - 0xDC00) + 0x10000) ++ t.1, t.2))
                    else (scanString fuel rest2).map (fun t => (encodeRune utf8.RuneError ++ t.1, t.2))
                  | none => (scanString fuel rest2).map (fun t => (encodeRune utf8.RuneError ++ t.1, t.2))
                | _ => (scanString fuel rest2).map (fun t => (encodeRune utf8.RuneError ++ t.1, t.2))
              else (scanString fuel rest2).map (fun t => (encodeRune r ++ t.1, t.2))
          | _ => none
        else none
    else if c < 0x80 then (scanString fuel rest).map (fun r => (c :: r.1, r.2))
    else
      let cs := utf8.DecodeRune (c :: rest)
      (scanString fuel (rest.drop (cs.2 - 1))).map (fun r => (encodeRune cs.1 ++ r.1, r.2))

/-- A number literal at the head of the input, by the grammar
`-? (0 | [1-9][0-9]*) (. [0-9]+)? ([eE] [+-]? [0-9]+)?`, and the input after
it. -/
def scanNumber (s : GoString) : Option (GoString × GoString) :=
  let sign : GoString := if s.head? = some 45 then [45] else []
  let s1 := s.drop sign.length
  let ds := spanDigits s1
  if ds.1 = [] || (ds.1.head? = some 48 && ds.1.length ≠ 1) then none
  else
    let afterInt := ds.2
    let frac : Option (GoString × GoString) :=
      match afterInt with
      | 46 :: t =>
        let fs := spanDigits t
        if fs.1 = [] then none else some (46 :: fs.1, fs.2)
      | _ => some ([], afterInt)
    match frac with
    | none => none
    | some (fr, afterFrac) =>
      match afterFrac with
      | e :: t =>
        if e = 101 || e = 69 then
          let sg : GoString := match t with
            | x :: _ => if x = 43 || x = 45 then [x] else []
            | [] => []
          let es := spanDigits (t.drop sg.length)
          if es.1 = [] then none
          else some (sign ++ ds.1 ++ fr ++ [e] ++ sg ++ es.1, es.2)
        else some (sign ++ ds.1 ++ fr, afterFrac)
      | [] => some (sign ++ ds.1 ++ fr, [])

mutual

/-- One JSON value at the head of the input, after optional whitespace, and
the input that follows it. -/
def parseValue : Nat → GoString → Option (JSON × GoString)
  | 0, _ => none
  | fuel + 1, s =>
    match skipSpace s with
    | [] => none
    | c :: rest =>
      if c = 123 then
        match skipSpace rest with
        | c1 :: rest1 =>
          if c1 = 125 then some (.object [], rest1) else parseMembers fuel (c1 :: rest1) []
        | [] => none
      else if c = 91 then
        match skipSpace rest with
        | c1 :: rest1 =>
          if c1 = 93 then some (.array [], rest1) else parseElems fuel (c1 :: rest1) []
        | [] => none
      else if c = 34 then
        (scanString (rest.length + 1) rest).map (fun r => (.string r.1, r.2))
      else if strings.startsWith (c :: rest) (go "true") then some (.bool true, rest.drop 3)
      else if strings.startsWith (c :: rest) (go "false") then some (.bool false, rest.drop 4)
      else if strings.startsWith (c :: rest) (go "null") then some (.null, rest.drop 3)
      else (scanNumber (c :: rest)).map (fun r => (.number r.1, r.2))

/-- The members of an object from the first key on, up to the closing
brace; `acc` holds the members read so far. -/
def parseMembers : Nat → GoString → List (GoString × JSON) → Option (JSON × GoString)
  | 0, _, _ => none
  | fuel + 1, s, acc =>
    match skipSpace s with
    | q :: rest =>
      if q = 34 then
        match scanString (rest.length + 1) rest with
        | none => none
        | some (key, rest1) =>
          match skipSpace rest1 with
          | colon :: rest2 =>
            if colon = 58 then
              match parseValue fuel rest2 with
              | none => none
              | some (v, rest3) =>
                match skipSpace rest3 with
                | d :: rest4 =>
                  if d = 44 then parseMembers fuel rest4 (acc ++ [(key, v)])
                  else if d = 125 then some (.object (acc ++ [(key, v)]), rest4)
                  else none
                | [] => none
            else none
          | [] => none
      else none
    | [] => none

/-- The elements of an array from the first one on, up to the closing
bracket; `acc` holds the elements read so far. -/
def parseElems : Nat → GoString → List JSON → Option (JSON × GoString)
  | 0, _, _ => none
  | fuel + 1, s, acc =>
    match parseValue fuel s with
    | none => none
    | some (v, rest) =>
      match skipSpace rest with
      | d :: rest1 =>
        if d = 44 then parseElems fuel rest1 (acc ++ [v])
        else if d = 93 then some (.array (acc ++ [v]), rest1)
        else none
      | [] => none

end

/-- The JSON value that `data` is, when `data` is exactly one JSON value with
optional whitespace around it (what `checkValid` accepts); `none` for a
`SyntaxError`. -/
def parse (data : GoString) : Option JSON :=
  match parseValue (data.length + 1) data with
  | none => none
  | some (v, rest) => if skipSpace rest = [] then some v else none

/-- Go `json.Valid(data)`. -/
def Valid (data : GoString) : Bool := (parse data).isSome

end json

namespace strconv

/-- The number written by a string of decimal digits. -/
def natOfDigits (ds : GoString) : Nat :=
  ds.foldl (fun n c => 10 * n + (c.toNat - 48)) 0

/-- Go `strconv.ParseFloat(s, 64)` for a JSON number literal `s`: the `float64`
nearest to the decimal, `none` (`ErrRange`) when that is infinite. -/
def ParseFloat (s : GoString) : Option Float64 :=
  let neg := decide (s.head? = some 45)
  let ip := json.spanDigits (if neg then s.drop 1 else s)
  let fr : GoString × GoString :=
    match ip.2 with
    | 46 :: t => json.spanDigits t
    | r => ([], r)
  let exp : Int :=
    match fr.2 with
    | _ :: 45 :: t => -(natOfDigits (json.spanDigits t).1 : Int)
    | _ :: 43 :: t => (natOfDigits (json.spanDigits t).1 : Int)
    | _ :: t => (natOfDigits (json.spanDigits t).1 : Int)
    | [] => 0
  let f := Float64.ofDecimal (natOfDigits (ip.1 ++ fr.1)) (exp - (fr.1.length : Int))
  if f.bits = Float64.infBits then none
  else some ⟨f.bits + (if neg then 2 ^ 63 else 0)⟩

end strconv

namespace json

/-- The errors of `Unmarshal`: `*json.SyntaxError` and
`*json.UnmarshalTypeError`. -/
inductive DecodeError where
  | Syntax
  | UnmarshalType
deriving DecidableEq

/-- Go `foldName`, as far as it matters for matching a key against an ASCII
field name: ASCII letters are upper-cased, and the two other runes whose
simple case folding is an ASCII letter, U+017F (long s) and U+212A (Kelvin
sign), become `S` and `K`; every other rune is left as it is.  `pending`
counts the continuation bytes of the current rune, copied when `copy` is
set. -/
def foldName : Nat → Bool → GoString → GoString
  | _, _, [] => []
  | pending + 1, copy, b :: rest =>
    if copy then b :: foldName pending copy rest else foldName pending copy rest
  | 0, _, b :: rest =>
    if b < 0x80 then (if 97 ≤ b && b ≤ 122 then b - 32 else b) :: foldName 0 true rest
    else
      let cs := utf8.DecodeRune (b :: rest)
      if cs.1 = 0x17F then 83 :: foldName (cs.2 - 1) false rest
      else if cs.1 = 0x212A then 75 :: foldName (cs.2 - 1) false rest
      else b :: foldName (cs.2 - 1) true rest

/-- Index and current value of the first field satisfying `p`. -/
def findIdx (p : GoString → Bool) : Nat → List (GoString × Value) → Option (Nat × Value)
  | _, [] => none
  | i, (name, v) :: fs => if p name then some (i, v) else findIdx p (i + 1) fs

/-- The field a key of the input is stored in: the field with exactly that
name, else the field whose name equals it up to case. -/
def findField (fields : List (GoString × Value)) (key : GoString) : Option (Nat × Value) :=
  match findIdx (fun name => name = key) 0 fields with
  | some r => some r
  | none => findIdx (fun name => foldName 0 true name = foldName 0 true key) 0 fields

/-- Stores a JSON value in the field of index `i`, whose kind is that of
`kind`; the flag reports an `UnmarshalTypeError` (the field is then left
alone).  `null` changes nothing. -/
def storeField {α : Type} [Struct α] (v : α) (i : Nat) (kind : Value) (j : JSON) : α × Bool :=
  match j, kind with
  | .null, _ => (v, false)
  | .bool b, .Bool _ => (Struct.set v i (.Bool b), false)
  | .string s, .String _ => (Struct.set v i (.String s), false)
  | .number lit, .Float64 _ =>
    match strconv.ParseFloat lit with
    | some f => (Struct.set v i (.Float64 f), false)
    | none => (v, true)
  | _, _ => (v, true)

/-- The members of an object stored one after the other into the struct; a
key that matches no field is skipped, and decoding goes on after a type
error. -/
def decodeObject {α : Type} [Struct α] : List (GoString × JSON) → α → Bool → α × Bool
  | [], v, err => (v, err)
  | (key, j) :: ms, v, err =>
    match findField (Struct.fields v) key with
    | none => decodeObject ms v err
    | some (i, kind) =>
      let r := storeField v i kind j
      decodeObject ms r.1 (err || r.2)

/-- Go `json.Unmarshal(data, &v)` for a struct `v`: the struct after the call and
the error returned.  Invalid input leaves the struct untouched. -/
def Unmarshal {α : Type} [Struct α] (data : GoString) (v : α) : α × Option DecodeError :=
  match parse data with
  | none => (v, some .Syntax)
  | some .null => (v, none)
  | some (.object ms) =>
    let r := decodeObject ms v false
    (r.1, if r.2 then some .UnmarshalType else none)
  | some _ => (v, some .UnmarshalType)

end json

/-! ## The handlers -/

/-- The handler `func getProduct(w http.ResponseWriter, r *http.Request)` (lines 22-44);
the error returned by `Encode` is discarded, as in the source. -/
def getProduct (w : http.ResponseWriter) (r : http.Request) : http.ResponseWriter :=
  let w := w.HeaderSet (go "Content-Type") (go "application/json")
  let productID := r.URL.Query.Get (go "productId")
  let product := getProduct.product productID
  (json.Encoder.Encode w product).1

/-- The handler `func getCustomer(w http.ResponseWriter, r *http.Request)` (lines 46-73);
the error returned by `Encode` is discarded, as in the source. -/
def getCustomer (w : http.ResponseWriter) (r : http.Request) : http.ResponseWriter :=
  let w := w.HeaderSet (go "Content-Type") (go "application/json")
  let customerID := r.URL.Query.Get (go "customerId")
  let customer := getCustomer.customer customerID
  (json.Encoder.Encode w customer).1


/-! ## The four records and the four responses -/

/-- The record of the `productID == "product-100"` branch (lines 29-34). -/
def iphone : Product :=
  { ProductID := go "product-100"
    Name := go "Iphone"
    Description := go "Un smartphone de última generación"
    Price := 2000.00 }

/-- The record of the `else` branch of `getProduct` (lines 36-41). -/
def laptop : Product :=
  { ProductID := go "product-789"
    Name := go "Laptop"
    Description := go "Una laptop potente"
    Price := 999.99 }

/-- The record of the `customerID == "Freyder-111"` branch (lines 55-60). -/
def freyder : Customer :=
  { CustomerID := go "Freyder-111"
    Name := go "Freyder Otalvaro"
    Email := go "freyde.otalvaro@example.com"
    Active := false }

/-- The record of the `else` branch of `getCustomer` (lines 63-68). -/
def violetta : Customer :=
  { CustomerID := go "Violetta-495"
    Name := go "Violetta Otalvaro"
    Email := go "violetta.otalvaro@example.com"
    Active := true }

/-- The text Go writes for the Iphone record. -/
def iphoneBody : GoString :=
  go "\x7b\"productId\":\"product-100\",\"name\":\"Iphone\",\"description\":\"Un smartphone de última generación\",\"price\":2000\x7d\n"

/-- The text Go writes for the Laptop record. -/
def laptopBody : GoString :=
  go "\x7b\"productId\":\"product-789\",\"name\":\"Laptop\",\"description\":\"Una laptop potente\",\"price\":999.99\x7d\n"

/-- The text Go writes for the Freyder record. -/
def freyderBody : GoString :=
  go "\x7b\"customerId\":\"Freyder-111\",\"name\":\"Freyder Otalvaro\",\"email\":\"freyde.otalvaro@example.com\",\"active\":false\x7d\n"

/-- The text Go writes for the Violetta record. -/
def violettaBody : GoString :=
  go "\x7b\"customerId\":\"Violetta-495\",\"name\":\"Violetta Otalvaro\",\"email\":\"violetta.otalvaro@example.com\",\"active\":true\x7d\n"

/-- A response with status 200, the single header
`Content-Type: application/json` and the given body. -/
def okJSON (body : GoString) : http.ResponseWriter :=
  { handlerHeader := [(go "Content-Type", [go "application/json"])]
    wroteHeader := true
    status := 200
    sentHeader := [(go "Content-Type", [go "application/json"])]
    body := body }

/-- The zero value of `Product`. -/
def Product.zero : Product := { ProductID := [], Name := [], Description := [], Price := ⟨0⟩ }

/-- The zero value of `Customer`. -/
def Customer.zero : Customer := { CustomerID := [], Name := [], Email := [], Active := false }

/-- The names of the members of a JSON object, in the order of the text. -/
def json.JSON.keys : json.JSON → Option (List GoString)
  | .object ms => some (ms.map (fun m => m.1))
  | _ => none

/-! ## Requests and writers used as instances -/

/-- The request `GET /product`, with no query string. -/
def plainProductRequest : http.Request :=
  { Method := go "GET", URL := { Path := go "/product", RawQuery := go "" }, Header := [],
    Body := [] }

/-- The request `GET /customer?page=2`, with another parameter only. -/
def otherParamCustomerRequest : http.Request :=
  { Method := go "GET", URL := { Path := go "/customer", RawQuery := go "page=2" }, Header := [],
    Body := [] }

/-- A writer whose header map already holds two entries, one of them a
`Content-Type`, and whose header is not written yet. -/
def presetWriter : http.ResponseWriter :=
  { handlerHeader := [(go "X-Request-Id", [go "42"]), (go "Content-Type", [go "text/plain"])]
    wroteHeader := false
    status := 0
    sentHeader := []
    body := [] }

/-- The request `GET /product?productId=product-100`. -/
def iphoneRequest : http.Request :=
  { Method := go "GET"
    URL := { Path := go "/product", RawQuery := go "productId=product-100" }
    Header := []
    Body := [] }

/-- The request `GET /customer?customerId=Freyder-111`. -/
def freyderRequest : http.Request :=
  { Method := go "GET"
    URL := { Path := go "/customer", RawQuery := go "customerId=Freyder-111" }
    Header := []
    Body := [] }

theorem getProduct.product_hit : getProduct.product (go "product-100") = iphone := by
  decide!

theorem getProduct.product_miss (s : GoString) (h : s ≠ go "product-100") :
    getProduct.product s = laptop := by
  unfold getProduct.product
  rw [if_neg h]
  rfl

theorem getCustomer.customer_hit : getCustomer.customer (go "Freyder-111") = freyder := by
  decide!

theorem getCustomer.customer_miss (s : GoString) (h : s ≠ go "Freyder-111") :
    getCustomer.customer s = violetta := by
  unfold getCustomer.customer
  rw [if_neg h]
  rfl

/-- C1: for every string `s` other than `"product-100"` (the empty string and
`"product-789"` included) the product selected by `getProduct` for
`productId = s` is the Laptop record: `productId = "product-789"`,
`name = "Laptop"`, `description = "Una laptop potente"`, `price = 999.99`. -/
theorem C1_default_product_is_laptop (s : GoString) (h : s ≠ go "product-100") :
    getProduct.product s =
      { ProductID := go "product-789"
        Name := go "Laptop"
        Description := go "Una laptop potente"
        Price := 999.99 } := by
  unfold getProduct.product
  rw [if_neg h]

theorem C1_default_product_is_laptop_witness :
    (go "" ≠ go "product-100" ∧
      getProduct.product (go "") =
        { ProductID := go "product-789", Name := go "Laptop",
          Description := go "Una laptop potente", Price := 999.99 }) ∧
    (go "product-789" ≠ go "product-100" ∧
      getProduct.product (go "product-789") =
        { ProductID := go "product-789", Name := go "Laptop",
          Description := go "Una laptop potente", Price := 999.99 }) :=
  ⟨⟨by decide, C1_default_product_is_laptop (go "") (by decide)⟩,
   ⟨by decide, C1_default_product_is_laptop (go "product-789") (by decide)⟩⟩

/-- C2: for the input `"product-100"` the product selected by `getProduct` is
the Iphone record: `productId = "product-100"`, `name = "Iphone"`,
`description = "Un smartphone de última generación"`, `price = 2000.00`; the
match is exact, a key in another case selects the other record. -/
theorem C2_product_100_is_iphone :
    getProduct.product (go "product-100") =
      { ProductID := go "product-100"
        Name := go "Iphone"
        Description := go "Un smartphone de última generación"
        Price := 2000.00 } ∧
    (getProduct.product (go "Product-100")).Name = go "Laptop" ∧
    (getProduct.product (go "PRODUCT-100")).Name = go "Laptop" := by
  decide!

/-- C3: for every string `s` other than `"Freyder-111"` (the empty string
included) the customer selected by `getCustomer` for `customerId = s` is the
Violetta record: `customerId = "Violetta-495"`, `name = "Violetta Otalvaro"`,
`email = "violetta.otalvaro@example.com"`, `active = true`. -/
theorem C3_default_customer_is_violetta (s : GoString) (h : s ≠ go "Freyder-111") :
    getCustomer.customer s =
      { CustomerID := go "Violetta-495"
        Name := go "Violetta Otalvaro"
        Email := go "violetta.otalvaro@example.com"
        Active := true } := by
  unfold getCustomer.customer
  rw [if_neg h]

theorem C3_default_customer_is_violetta_witness :
    go "" ≠ go "Freyder-111" ∧
      getCustomer.customer (go "") =
        { CustomerID := go "Violetta-495", Name := go "Violetta Otalvaro",
          Email := go "violetta.otalvaro@example.com", Active := true } :=
  ⟨by decide, C3_default_customer_is_violetta (go "") (by decide)⟩

/-- C4: for the input `"Freyder-111"` the customer selected by `getCustomer`
has `customerId = "Freyder-111"` and `active = false`; and over all inputs the
selected customer is inactive exactly when the input is `"Freyder-111"`. -/
theorem C4_inactive_iff_freyder :
    (getCustomer.customer (go "Freyder-111")).CustomerID = go "Freyder-111" ∧
    (getCustomer.customer (go "Freyder-111")).Active = false ∧
    ∀ s : GoString, (getCustomer.customer s).Active = false ↔ s = go "Freyder-111" := by
  refine ⟨by decide!, by decide!, fun s => ?_⟩
  by_cases h : s = go "Freyder-111"
  · subst h
    exact ⟨fun _ => rfl, fun _ => by decide!⟩
  · rw [getCustomer.customer_miss s h]
    exact ⟨fun hf => absurd hf (by decide), fun hs => absurd hs h⟩

/-! ## What the handlers write -/

theorem json.Encoder.Encode_of_ok {α : Type} [json.Struct α] (w : http.ResponseWriter) (v : α)
    (body : GoString)
    (h : (match json.Marshal v with
          | .ok b => decide (b ++ [10] = body)
          | .error _ => false) = true) :
    json.Encoder.Encode w v = (w.Write body, none) := by
  unfold json.Encoder.Encode
  cases hm : json.Marshal v with
  | error e => rw [hm] at h; exact absurd h (by simp)
  | ok b =>
    rw [hm] at h
    have hb : b ++ [10] = body := of_decide_eq_true h
    simp only [hb]

theorem Encode_iphone (w : http.ResponseWriter) :
    json.Encoder.Encode w iphone = (w.Write iphoneBody, none) :=
  json.Encoder.Encode_of_ok w iphone iphoneBody (by decide!)

theorem Encode_laptop (w : http.ResponseWriter) :
    json.Encoder.Encode w laptop = (w.Write laptopBody, none) :=
  json.Encoder.Encode_of_ok w laptop laptopBody (by decide!)

theorem Encode_freyder (w : http.ResponseWriter) :
    json.Encoder.Encode w freyder = (w.Write freyderBody, none) :=
  json.Encoder.Encode_of_ok w freyder freyderBody (by decide!)

theorem Encode_violetta (w : http.ResponseWriter) :
    json.Encoder.Encode w violetta = (w.Write violettaBody, none) :=
  json.Encoder.Encode_of_ok w violetta violettaBody (by decide!)

/-- The whole effect of `getProduct` on its writer. -/
theorem getProduct_eq (w : http.ResponseWriter) (r : http.Request) :
    getProduct w r =
      (w.HeaderSet (go "Content-Type") (go "application/json")).Write
        (if r.URL.Query.Get (go "productId") = go "product-100" then iphoneBody
         else laptopBody) := by
  unfold getProduct
  by_cases h : r.URL.Query.Get (go "productId") = go "product-100"
  · simp only [h, if_true, getProduct.product_hit, Encode_iphone]
  · simp only [h, if_false, getProduct.product_miss _ h, Encode_laptop]

/-- The whole effect of `getCustomer` on its writer. -/
theorem getCustomer_eq (w : http.ResponseWriter) (r : http.Request) :
    getCustomer w r =
      (w.HeaderSet (go "Content-Type") (go "application/json")).Write
        (if r.URL.Query.Get (go "customerId") = go "Freyder-111" then freyderBody
         else violettaBody) := by
  unfold getCustomer
  by_cases h : r.URL.Query.Get (go "customerId") = go "Freyder-111"
  · simp only [h, if_true, getCustomer.customer_hit, Encode_freyder]
  · simp only [h, if_false, getCustomer.customer_miss _ h, Encode_violetta]

theorem okJSON_eq (body : GoString) :
    (http.ResponseWriter.new.HeaderSet (go "Content-Type") (go "application/json")).Write body
      = okJSON body := by
  have hc : http.CanonicalMIMEHeaderKey (go "Content-Type") = go "Content-Type" := by decide!
  simp [http.ResponseWriter.Write, http.ResponseWriter.WriteHeader, http.ResponseWriter.HeaderSet,
    http.ResponseWriter.new, http.Header.Set, hc, http.Header.assign, okJSON, http.StatusOK]

/-- The response of `getProduct` to a new request. -/
theorem getProduct_new (r : http.Request) :
    getProduct .new r =
      okJSON (if r.URL.Query.Get (go "productId") = go "product-100" then iphoneBody
              else laptopBody) := by
  rw [getProduct_eq, okJSON_eq]

/-- The response of `getCustomer` to a new request. -/
theorem getCustomer_new (r : http.Request) :
    getCustomer .new r =
      okJSON (if r.URL.Query.Get (go "customerId") = go "Freyder-111" then freyderBody
              else violettaBody) := by
  rw [getCustomer_eq, okJSON_eq]

theorem url.Values.index_of_not_Has (v : url.Values) (key : GoString)
    (h : v.Has key = false) : v.index key = [] := by
  induction v with
  | nil => rfl
  | cons kv v ih =>
    obtain ⟨k, vs⟩ := kv
    simp only [url.Values.Has, List.any_cons, Bool.or_eq_false_iff, beq_eq_false_iff_ne,
      ne_eq] at h
    simp only [url.Values.index, if_neg h.1]
    exact ih h.2

theorem url.Values.Get_of_not_Has (v : url.Values) (key : GoString)
    (h : v.Has key = false) : v.Get key = [] := by
  unfold url.Values.Get
  rw [url.Values.index_of_not_Has v key h]

theorem url.Values.Has_Add (m : url.Values) (k v key : GoString) :
    (m.Add k v).Has key = (m.Has key || k == key) := by
  induction m with
  | nil => simp [url.Values.Add, url.Values.Has]
  | cons kv m ih =>
    obtain ⟨k0, vs⟩ := kv
    unfold url.Values.Add
    by_cases h0 : k0 = k
    · subst h0
      simp only [if_true, url.Values.Has, List.any_cons]
      cases (k0 == key) <;> simp
    · simp only [if_neg h0]
      have hrec : url.Values.Has (url.Values.Add m k v) key
          = (url.Values.Has m key || k == key) := ih
      simp only [url.Values.Has, List.any_cons] at hrec ⊢
      rw [hrec, Bool.or_assoc]

theorem url.parseQuery.step_not_Has (m : url.Values) (piece key : GoString)
    (hm : m.Has key = false)
    (hp : url.QueryUnescape (strings.Cut piece (go "=")).1 ≠ some key) :
    (url.parseQuery.step m piece).Has key = false := by
  unfold url.parseQuery.step
  split
  · exact hm
  · split
    · exact hm
    · simp only []
      split
      · exact hm
      · rename_i k hk
        split
        · exact hm
        · rw [url.Values.Has_Add, hm, Bool.false_or, beq_eq_false_iff_ne]
          intro e
          exact hp (by rw [hk, e])

theorem url.foldl_step_not_Has (pieces : List GoString) (m : url.Values) (key : GoString)
    (hm : m.Has key = false)
    (hp : ∀ piece ∈ pieces, url.QueryUnescape (strings.Cut piece (go "=")).1 ≠ some key) :
    (pieces.foldl url.parseQuery.step m).Has key = false := by
  induction pieces generalizing m with
  | nil => exact hm
  | cons piece rest ih =>
    rw [List.foldl_cons]
    exact ih _ (url.parseQuery.step_not_Has m piece key hm (hp piece (List.mem_cons_self _ _)))
      (fun q hq => hp q (List.mem_cons_of_mem _ hq))

/-- A query none of whose `&`-separated pieces has a key that unescapes to
`key` parses to values without that key. -/
theorem url.ParseQuery_not_Has (query key : GoString)
    (hp : ∀ piece ∈ url.parseQuery.pieces [] query,
      url.QueryUnescape (strings.Cut piece (go "=")).1 ≠ some key) :
    (url.ParseQuery query).Has key = false := by
  unfold url.ParseQuery
  split
  · exact url.foldl_step_not_Has _ [] key rfl hp
  · rfl

theorem json.Marshal_of_ok {α : Type} [json.Struct α] (v : α) (text : GoString)
    (h : (match json.Marshal v with
          | .ok b => decide (b = text)
          | .error _ => false) = true) :
    json.Marshal v = .ok text := by
  cases hm : json.Marshal v with
  | error e => rw [hm] at h; exact absurd h (by simp)
  | ok b =>
    rw [hm] at h
    rw [of_decide_eq_true h]

theorem http.Header.index_assign (h : http.Header) (key : GoString) (vs : List GoString)
    (k : GoString) :
    (h.assign key vs).index k = if key = k then vs else h.index k := by
  induction h with
  | nil => simp [http.Header.assign, http.Header.index]
  | cons kv h ih =>
    obtain ⟨k0, old⟩ := kv
    unfold http.Header.assign
    by_cases h0 : k0 = key
    · subst h0
      simp only [if_true, http.Header.index]
      by_cases h1 : k0 = k <;> simp [h1]
    · simp only [if_neg h0, http.Header.index, ih]
      by_cases h1 : k0 = k
      · have h2 : ¬ key = k := fun e => h0 (h1.trans e.symm)
        simp [h1, h2]
      · simp [h1]

/-- C5: for every request whose query does not have the named parameter
(`productId` for `/product`, `customerId` for `/customer`) the handler
extracts the empty string and answers with the default record (the Laptop,
`productId = "product-789"`, respectively Violetta,
`customerId = "Violetta-495"`) and status 200, not with an error response.
The parameter is absent when the parsed query has no value for it, which is
the case in particular when no `&`-separated piece of the raw query has a key
that unescapes to its name. -/
theorem C5_missing_parameter_gives_default (r : http.Request) :
    (∀ key : GoString,
      (∀ piece ∈ url.parseQuery.pieces [] r.URL.RawQuery,
        url.QueryUnescape (strings.Cut piece (go "=")).1 ≠ some key) →
      r.URL.Query.Has key = false) ∧
    (r.URL.Query.Has (go "productId") = false →
      r.URL.Query.Get (go "productId") = go "" ∧
      getProduct .new r = okJSON laptopBody ∧
      (getProduct .new r).status = 200 ∧
      json.Unmarshal (getProduct .new r).body Product.zero = (laptop, none) ∧
      laptop.ProductID = go "product-789") ∧
    (r.URL.Query.Has (go "customerId") = false →
      r.URL.Query.Get (go "customerId") = go "" ∧
      getCustomer .new r = okJSON violettaBody ∧
      (getCustomer .new r).status = 200 ∧
      json.Unmarshal (getCustomer .new r).body Customer.zero = (violetta, none) ∧
      violetta.CustomerID = go "Violetta-495") := by
  refine ⟨fun key hp => url.ParseQuery_not_Has r.URL.RawQuery key hp, ?_, ?_⟩
  · intro h
    have hg : r.URL.Query.Get (go "productId") = [] := url.Values.Get_of_not_Has _ _ h
    have hne : ¬ (([] : GoString) = go "product-100") := by decide
    have hr : getProduct .new r = okJSON laptopBody := by
      rw [getProduct_new, hg, if_neg hne]
    rw [hr]
    exact ⟨hg, rfl, by decide!, by decide!, by decide!⟩
  · intro h
    have hg : r.URL.Query.Get (go "customerId") = [] := url.Values.Get_of_not_Has _ _ h
    have hne : ¬ (([] : GoString) = go "Freyder-111") := by decide
    have hr : getCustomer .new r = okJSON violettaBody := by
      rw [getCustomer_new, hg, if_neg hne]
    rw [hr]
    exact ⟨hg, rfl, by decide!, by decide!, by decide!⟩

theorem C5_missing_parameter_gives_default_witness :
    ((∀ piece ∈ url.parseQuery.pieces [] otherParamCustomerRequest.URL.RawQuery,
        url.QueryUnescape (strings.Cut piece (go "=")).1 ≠ some (go "customerId")) ∧
      otherParamCustomerRequest.URL.Query.Has (go "customerId") = false) ∧
    (plainProductRequest.URL.Query.Has (go "productId") = false ∧
      getProduct .new plainProductRequest = okJSON laptopBody) ∧
    (otherParamCustomerRequest.URL.Query.Has (go "customerId") = false ∧
      getCustomer .new otherParamCustomerRequest = okJSON violettaBody) :=
  ⟨⟨by decide!,
    (C5_missing_parameter_gives_default otherParamCustomerRequest).1 (go "customerId")
      (by decide!)⟩,
   ⟨by decide!,
    ((C5_missing_parameter_gives_default plainProductRequest).2.1 (by decide!)).2.1⟩,
   ⟨by decide!,
    ((C5_missing_parameter_gives_default otherParamCustomerRequest).2.2 (by decide!)).2.1⟩⟩

/-- C6: for every request given to `getProduct` or `getCustomer`, whatever
its query string, the status of the response is 200 and the body is the JSON
encoding (followed by a newline) of one of the two records of the route; that
body is valid JSON and decodes to the record. -/
theorem C6_always_200_with_valid_json (r : http.Request) :
    ((getProduct .new r).status = 200 ∧
      ∃ p b, (p = iphone ∨ p = laptop) ∧ json.Marshal p = .ok b ∧
        (getProduct .new r).body = b ++ [10] ∧
        json.Valid (getProduct .new r).body = true ∧
        json.Unmarshal (getProduct .new r).body Product.zero = (p, none)) ∧
    ((getCustomer .new r).status = 200 ∧
      ∃ c b, (c = freyder ∨ c = violetta) ∧ json.Marshal c = .ok b ∧
        (getCustomer .new r).body = b ++ [10] ∧
        json.Valid (getCustomer .new r).body = true ∧
        json.Unmarshal (getCustomer .new r).body Customer.zero = (c, none)) := by
  constructor
  · rw [getProduct_new]
    refine ⟨rfl, ?_⟩
    split
    · exact ⟨iphone, iphoneBody.dropLast, Or.inl rfl,
        json.Marshal_of_ok iphone _ (by decide!), by decide!, by decide!, by decide!⟩
    · exact ⟨laptop, laptopBody.dropLast, Or.inr rfl,
        json.Marshal_of_ok laptop _ (by decide!), by decide!, by decide!, by decide!⟩
  · rw [getCustomer_new]
    refine ⟨rfl, ?_⟩
    split
    · exact ⟨freyder, freyderBody.dropLast, Or.inl rfl,
        json.Marshal_of_ok freyder _ (by decide!), by decide!, by decide!, by decide!⟩
    · exact ⟨violetta, violettaBody.dropLast, Or.inr rfl,
        json.Marshal_of_ok violetta _ (by decide!), by decide!, by decide!, by decide!⟩

theorem Write_headers (w : http.ResponseWriter) (key value body : GoString)
    (h : w.wroteHeader = false) :
    ((w.HeaderSet key value).Write body).handlerHeader = w.handlerHeader.Set key value ∧
    ((w.HeaderSet key value).Write body).sentHeader = w.handlerHeader.Set key value ∧
    ((w.HeaderSet key value).Write body).body = w.body ++ body := by
  simp [http.ResponseWriter.Write, http.ResponseWriter.WriteHeader,
    http.ResponseWriter.HeaderSet, h]

theorem Set_content_type (h : http.Header) :
    (h.Set (go "Content-Type") (go "application/json")).Get (go "Content-Type")
      = go "application/json" ∧
    (h.Set (go "Content-Type") (go "application/json")).index (go "Content-Type")
      = [go "application/json"] ∧
    ∀ k : GoString, k ≠ go "Content-Type" →
      (h.Set (go "Content-Type") (go "application/json")).index k = h.index k := by
  have hc : http.CanonicalMIMEHeaderKey (go "Content-Type") = go "Content-Type" := by decide!
  refine ⟨?_, ?_, fun k hk => ?_⟩
  · simp [http.Header.Get, http.Header.Set, hc, http.Header.index_assign]
  · simp [http.Header.Set, hc, http.Header.index_assign]
  · simp only [http.Header.Set, hc, http.Header.index_assign, if_neg (Ne.symm hk)]

/-- C7: for every request handled by `getProduct` or `getCustomer`, on
either branch, the header `Content-Type` is set to exactly
`application/json` before the body is written (it is in the header map as
sent with the first write), and the handler sets no other header: every other
entry of the header map is as the handler found it, and for a new request
`Content-Type` is the only header. -/
theorem C7_content_type_is_the_only_header_set (w : http.ResponseWriter) (r : http.Request)
    (h : w.wroteHeader = false) :
    ((getProduct w r).sentHeader = (getProduct w r).handlerHeader ∧
      (getProduct w r).sentHeader.Get (go "Content-Type") = go "application/json" ∧
      (getProduct w r).sentHeader.index (go "Content-Type") = [go "application/json"] ∧
      (∀ k : GoString, k ≠ go "Content-Type" →
        (getProduct w r).sentHeader.index k = w.handlerHeader.index k) ∧
      (getProduct .new r).sentHeader = [(go "Content-Type", [go "application/json"])]) ∧
    ((getCustomer w r).sentHeader = (getCustomer w r).handlerHeader ∧
      (getCustomer w r).sentHeader.Get (go "Content-Type") = go "application/json" ∧
      (getCustomer w r).sentHeader.index (go "Content-Type") = [go "application/json"] ∧
      (∀ k : GoString, k ≠ go "Content-Type" →
        (getCustomer w r).sentHeader.index k = w.handlerHeader.index k) ∧
      (getCustomer .new r).sentHeader = [(go "Content-Type", [go "application/json"])]) := by
  constructor
  · rw [getProduct_new, getProduct_eq]
    obtain ⟨h1, h2, -⟩ := Write_headers w (go "Content-Type") (go "application/json")
      (if r.URL.Query.Get (go "productId") = go "product-100" then iphoneBody else laptopBody) h
    obtain ⟨g1, g2, g3⟩ := Set_content_type w.handlerHeader
    rw [h1, h2]
    exact ⟨rfl, g1, g2, g3, rfl⟩
  · rw [getCustomer_new, getCustomer_eq]
    obtain ⟨h1, h2, -⟩ := Write_headers w (go "Content-Type") (go "application/json")
      (if r.URL.Query.Get (go "customerId") = go "Freyder-111" then freyderBody
       else violettaBody) h
    obtain ⟨g1, g2, g3⟩ := Set_content_type w.handlerHeader
    rw [h1, h2]
    exact ⟨rfl, g1, g2, g3, rfl⟩

theorem C7_content_type_is_the_only_header_set_witness :
    presetWriter.wroteHeader = false ∧
    (getProduct presetWriter plainProductRequest).sentHeader =
      [(go "X-Request-Id", [go "42"]), (go "Content-Type", [go "application/json"])] ∧
    (getProduct presetWriter plainProductRequest).sentHeader.Get (go "Content-Type")
      = go "application/json" ∧
    (getCustomer presetWriter otherParamCustomerRequest).sentHeader.index (go "X-Request-Id")
      = [go "42"] :=
  ⟨rfl, by decide!,
   (C7_content_type_is_the_only_header_set presetWriter plainProductRequest rfl).1.2.1,
   ((C7_content_type_is_the_only_header_set presetWriter otherParamCustomerRequest rfl).2.2.2.2.1
      (go "X-Request-Id") (by decide)).trans (by decide!)⟩

/-- C8: for each of the four records the handlers can return (Iphone, Laptop,
Freyder, Violetta) encoding the record as JSON with the field tags of its
struct and decoding the text into a value of the same struct type gives a
record equal to the original in every field, the prices 2000.00 and 999.99
and the non-ASCII description included; and these four are all the records the
handlers select. -/
theorem C8_encode_decode_roundtrip :
    (∃ b, json.Marshal iphone = .ok b ∧ json.Unmarshal b Product.zero = (iphone, none)) ∧
    (∃ b, json.Marshal laptop = .ok b ∧ json.Unmarshal b Product.zero = (laptop, none)) ∧
    (∃ b, json.Marshal freyder = .ok b ∧ json.Unmarshal b Customer.zero = (freyder, none)) ∧
    (∃ b, json.Marshal violetta = .ok b ∧ json.Unmarshal b Customer.zero = (violetta, none)) ∧
    (∀ s : GoString, getProduct.product s = iphone ∨ getProduct.product s = laptop) ∧
    (∀ s : GoString, getCustomer.customer s = freyder ∨ getCustomer.customer s = violetta) := by
  refine ⟨⟨iphoneBody.dropLast, json.Marshal_of_ok iphone _ (by decide!), by decide!⟩,
    ⟨laptopBody.dropLast, json.Marshal_of_ok laptop _ (by decide!), by decide!⟩,
    ⟨freyderBody.dropLast, json.Marshal_of_ok freyder _ (by decide!), by decide!⟩,
    ⟨violettaBody.dropLast, json.Marshal_of_ok violetta _ (by decide!), by decide!⟩,
    fun s => ?_, fun s => ?_⟩
  · by_cases h : s = go "product-100"
    · exact Or.inl (h ▸ getProduct.product_hit)
    · exact Or.inr (getProduct.product_miss s h)
  · by_cases h : s = go "Freyder-111"
    · exact Or.inl (h ▸ getCustomer.customer_hit)
    · exact Or.inr (getCustomer.customer_miss s h)

/-- C9: for every request the body written by `getProduct` is a single JSON
object whose keys are exactly `productId`, `name`, `description`, `price` in
that order, and the body written by `getCustomer` is a single JSON object
whose keys are exactly `customerId`, `name`, `email`, `active` in that order;
the body for `productId = "product-100"` contains `"name":"Iphone"` and the
body for `customerId = "Freyder-111"` contains `"active":false`. -/
theorem C9_body_is_object_with_tagged_keys (r : http.Request) :
    (json.parse (getProduct .new r).body).bind json.JSON.keys
      = some [go "productId", go "name", go "description", go "price"] ∧
    (json.parse (getCustomer .new r).body).bind json.JSON.keys
      = some [go "customerId", go "name", go "email", go "active"] ∧
    (r.URL.Query.Get (go "productId") = go "product-100" →
      strings.Contains (getProduct .new r).body (go "\"name\":\"Iphone\"") = true) ∧
    (r.URL.Query.Get (go "customerId") = go "Freyder-111" →
      strings.Contains (getCustomer .new r).body (go "\"active\":false") = true) := by
  refine ⟨?_, ?_, fun h => ?_, fun h => ?_⟩
  · rw [getProduct_new]
    split <;> decide!
  · rw [getCustomer_new]
    split <;> decide!
  · rw [getProduct_new, if_pos h]
    decide!
  · rw [getCustomer_new, if_pos h]
    decide!

theorem C9_body_is_object_with_tagged_keys_witness :
    (iphoneRequest.URL.Query.Get (go "productId") = go "product-100" ∧
      strings.Contains (getProduct .new iphoneRequest).body (go "\"name\":\"Iphone\"") = true) ∧
    (freyderRequest.URL.Query.Get (go "customerId") = go "Freyder-111" ∧
      strings.Contains (getCustomer .new freyderRequest).body (go "\"active\":false") = true) :=
  ⟨⟨by decide!, (C9_body_is_object_with_tagged_keys iphoneRequest).2.2.1 (by decide!)⟩,
   ⟨by decide!, (C9_body_is_object_with_tagged_keys freyderRequest).2.2.2 (by decide!)⟩⟩

